import Mathlib

/-!
Verification development for the bytesize repository (src/lib.rs and
src/display.rs): the unit-selection, rendering and parsing engine for
human-readable byte counts.

Modelling conventions.
The Rust `u64` domain is `Nat` together with explicit `% 2 ^ 64` (or an
`Option` result) exactly where the source wraps or faults.  The few `f64`
operations of the source are modelled by exact arithmetic:
the logarithmic tier estimate `(size.ln() / unit_base) as usize` is
modelled by its exact mathematical value, the floor logarithm `floorLog`
(computed by iterated division, which is the definition of the floor
logarithm for natural numbers); the quotient `size / unit.pow(exp)` is kept
as the exact fraction `bytes / unit ^ exp` and rendered by `formatFixed`,
which performs the decimal rounding (round half to even, as Rust float
formatting does) exactly.  The exact model and the IEEE computation do
not coincide everywhere: the libm logarithm estimate exceeds the exact
floor logarithm on narrow bands just below powers of the base, and the
f64 conversion of an integer above 2 ^ 53 can round up across a tier
boundary.  Each theorem below is stated only at inputs where the modelled
pieces coincide with the IEEE computation, and the one divergence that is
itself program behaviour --- the two tier selectors of src/display.rs
disagreeing --- is recorded as such, with the bit-level libm value noted
at the theorem.  Recursive functions are given an explicit fuel
argument equal to their main argument, which strictly bounds the recursion
depth, so that every definition is structurally recursive and evaluates
inside the kernel.
-/

namespace Bytesize

/-! ## Constant tables (src/lib.rs lines 50-88) -/

def B : ℕ := 1

def KB : ℕ := 1000

def MB : ℕ := 1000000

def GB : ℕ := 1000000000

def TB : ℕ := 1000000000000

def PB : ℕ := 1000000000000000

def KIB : ℕ := 1024

def MIB : ℕ := 1048576

def GIB : ℕ := 1073741824

def TIB : ℕ := 1099511627776

def PIB : ℕ := 1125899906842624

/-- IEC (binary) unit letters, `UNITS_IEC` of src/lib.rs line 77. -/
def UNITS_IEC : List Char := ['K', 'M', 'G', 'T', 'P', 'E']

/-- SI (decimal) unit letters, `UNITS_SI` of src/lib.rs line 82. -/
def UNITS_SI : List Char := ['k', 'M', 'G', 'T', 'P', 'E']

/-- Modulus of the Rust `u64` type. -/
def U64_MOD : ℕ := 2 ^ 64

/-! ## Decimal rendering helpers

These model Rust `format!` output exactly: `natToString` is decimal
notation of a natural number, `formatFixed` is `{:.p$}` formatting of
the exact fraction `num / den` with round half to even. -/

/-- Decimal digits of `n`, most significant first.  The fuel argument
bounds the recursion depth; `natToString` passes `n + 1`, which always
suffices since `n / 10 < n` for `n ≥ 10`. -/
def natToStringAux : ℕ → ℕ → List Char
  | 0, _ => []
  | fuel + 1, n =>
    if n < 10 then [Nat.digitChar n]
    else natToStringAux fuel (n / 10) ++ [Nat.digitChar (n % 10)]

/-- Decimal notation of a natural number, as Rust `format!` prints a `u64`. -/
def natToString (n : ℕ) : String := String.mk (natToStringAux (n + 1) n)

/-- Nearest integer to `num / den`, ties to the even integer: the rounding
Rust float formatting applies to the exact value at a given precision. -/
def roundHalfEven (num den : ℕ) : ℕ :=
  let q := num / den
  let r := num % den
  if 2 * r < den then q
  else if den < 2 * r then q + 1
  else if q % 2 = 0 then q else q + 1

/-- Left-pad a digit string with zeros to width `p`. -/
def padZeros (s : String) (p : ℕ) : String :=
  String.mk (List.replicate (p - s.length) '0') ++ s

/-- Rust `{:.p$}` formatting of the exact fraction `num / den`: the value
scaled by `10 ^ p`, rounded half to even, printed with a decimal point
before the last `p` digits.  The program formats the f64 quotient, which
the double rounding of conversion and division can perturb away from the
exact fraction (1050 bytes at base 1000 prints 1.1, not 1.0); the theorems
below evaluate `formatFixed` only at inputs where the IEEE computation
prints the same digits. -/
def formatFixed (num den p : ℕ) : String :=
  let n := roundHalfEven (num * 10 ^ p) den
  if p = 0 then natToString n
  else natToString (n / 10 ^ p) ++ "." ++ padZeros (natToString (n % 10 ^ p)) p

/-! ## The logarithmic tier estimate, exactly

Both src/lib.rs (line 236) and src/display.rs (`ideal_unit_std`, line 222)
compute `(size.ln() / unit_base) as usize`.  Its exact mathematical value
is the floor logarithm: the unique `e` with `unit ^ e ≤ size < unit ^ (e + 1)`
(for `unit ≥ 2`, `size ≥ 1`).  The f64 computation of the program can
return one more than this exact value on narrow bands just below powers of
the base (the libm logarithm of such an input rounds to the same double as
the logarithm of the power), which is exactly the selector disagreement
recorded below; the theorems using `floorLog` are stated at inputs where
the two coincide. -/

/-- Floor logarithm by iterated division; the fuel argument (instantiated
with `m` by `floorLog`) strictly bounds the recursion depth. -/
def floorLogAux (unit : ℕ) : ℕ → ℕ → ℕ
  | 0, _ => 0
  | fuel + 1, m =>
    if m < unit then 0 else floorLogAux unit fuel (m / unit) + 1

/-- Exact value of the logarithmic tier estimate `(size.ln() / unit_base) as usize`. -/
def floorLog (unit m : ℕ) : ℕ := floorLogAux unit m m

/-! ## src/lib.rs rendering -/

/-- Format / style selector of src/lib.rs lines 90-95. -/
inductive Format
  | IEC
  | SI

/-- Exponent clamp of src/lib.rs lines 236-239: `match estimate { 0 => 1, e => e }`.
A zero tier estimate is replaced by 1. -/
def clampExp : ℕ → ℕ
  | 0 => 1
  | e + 1 => e + 1

/-- Renderer `to_string_format` of src/lib.rs lines 213-248 at the fixed
precision 1 the source hardcodes.  Below the unit the raw integer is
printed with the literal suffix " B"; otherwise the clamped logarithmic
tier estimate selects the prefix letter at index `exp - 1` (Rust indexing
panics out of bounds; `List.getD` stands in for it, and the in-bounds
property is proved below). -/
def to_string_format (bytes : ℕ) (format : Format) : String :=
  let unit : ℕ := match format with | .IEC => KIB | .SI => KB
  let unit_letters : List Char := match format with | .IEC => UNITS_IEC | .SI => UNITS_SI
  let unit_suffix : String := match format with | .IEC => "iB" | .SI => "B"
  if bytes < unit then
    natToString bytes ++ " B"
  else
    let exp := clampExp (floorLog unit bytes)
    formatFixed bytes (unit ^ exp) 1 ++ " " ++
      String.mk [unit_letters.getD (exp - 1) '?'] ++ unit_suffix

/-- Renderer entry `to_string` of src/lib.rs lines 209-211. -/
def to_string (bytes : ℕ) (si_unit : Bool) : String :=
  to_string_format bytes (if si_unit then Format.SI else Format.IEC)

/-! ## src/display.rs -/

namespace display

/-- Base for binary bit variants, `KIB_BITS` of src/display.rs line 5. -/
def KIB_BITS : ℕ := KIB * 8

/-- Base for decimal bit variants, `KB_BITS` of src/display.rs line 6. -/
def KB_BITS : ℕ := KB * 8

/-- Format / style enum of src/display.rs lines 15-22. -/
inductive Format
  | Iec
  | IecShort
  | Si
  | SiShort
  | IecBits
  | SiBits

/-- `Format::unit` of src/display.rs lines 25-32. -/
def Format.unit : Format → ℕ
  | .Iec | .IecShort => KIB
  | .Si | .SiShort => KB
  | .IecBits => KIB_BITS
  | .SiBits => KB_BITS

/-- `Format::unit_prefixes` of src/display.rs lines 43-48. -/
def Format.unit_letters : Format → List Char
  | .Iec | .IecShort | .IecBits => UNITS_IEC
  | .Si | .SiShort | .SiBits => UNITS_SI

/-- `Format::unit_separator` of src/display.rs lines 50-55. -/
def Format.unit_separator : Format → String
  | .Iec | .Si | .IecBits | .SiBits => " "
  | .IecShort | .SiShort => ""

/-- `Format::unit_suffix` of src/display.rs lines 57-65. -/
def Format.unit_suffix : Format → String
  | .Iec => "iB"
  | .Si => "B"
  | .IecShort | .SiShort => ""
  | .IecBits => "ib"
  | .SiBits => "b"

/-- The `matches!(self.format, Format::IecBits | Format::SiBits)` test of
src/display.rs line 158. -/
def Format.is_bits : Format → Bool
  | .IecBits | .SiBits => true
  | .Iec | .IecShort | .Si | .SiShort => false

/-- The magnitude computation of src/display.rs line 159, verbatim:
`bytes * (is_bits as u64 * 8)`, a wrapping `u64` product.  Note that
`is_bits as u64 * 8` is 8 for bit variants and 0 for byte variants. -/
def bits_or_bytes (format : Format) (bytes : ℕ) : ℕ :=
  (bytes * ((if format.is_bits then 1 else 0) * 8)) % U64_MOD

/-- Loop body of `ideal_unit_no_std`, src/display.rs lines 202-214: repeatedly
divide by `unit`, counting divisions, until the quotient drops below `unit`.
The source iterates on an `f64` converted from the integer; for inputs below
2 ^ 53 the conversion is exact and iterated natural floor division preserves
every comparison against `unit` exactly, while above 2 ^ 53 the conversion
itself can round up across a tier boundary (2 ^ 60 - 1 converts to 2 ^ 60),
so the embedded loop is cited only at exactly-converted inputs.  The fuel
argument (instantiated with `size`) strictly bounds the iteration count. -/
def idealUnitLoop (unit : ℕ) : ℕ → ℕ → ℕ → ℕ
  | 0, _, pfx => pfx
  | fuel + 1, size, pfx =>
    if size / unit < unit then pfx + 1
    else idealUnitLoop unit fuel (size / unit) (pfx + 1)

/-- Iterative-division tier selector `ideal_unit_no_std` of src/display.rs
lines 199-215.  The assert of line 200 restricts its contract to
`size ≥ unit`. -/
def ideal_unit_no_std (size unit : ℕ) : ℕ := idealUnitLoop unit size size 0

/-- The match of src/display.rs lines 222-225:
`match (size.ln() / unit_base) as usize { 0 => unreachable!(), e => e }`.
A zero estimate hits `unreachable!`, a panic, modelled by `none` --- it is
not clamped to 1. -/
def ideal_unit_std_match : ℕ → Option ℕ
  | 0 => none
  | e + 1 => some (e + 1)

/-- Logarithmic tier selector `ideal_unit_std` of src/display.rs lines
219-226, under the exact model of the `f64` logarithm quotient.  The assert
of line 220 (`size.ln() >= unit_base`) fails, a panic (`none`), exactly when
`size < unit`. -/
def ideal_unit_std (size unit : ℕ) : Option ℕ :=
  if size < unit then none
  else ideal_unit_std_match (floorLog unit size)

/-- The Display::fmt renderer of src/display.rs lines 154-196, with the
formatter precision (`f.precision().unwrap_or(1)`) as an explicit argument.
The tier is selected with the iterative selector (the no-std build of the
source); the selectors are proved to agree on the shared domain below. -/
def fmt (format : Format) (byte_size : ℕ) (precision : ℕ) : String :=
  let bob := bits_or_bytes format byte_size
  let unit := format.unit
  if bob < unit then
    natToString bob ++ format.unit_separator ++ (if format.is_bits then "b" else "B")
  else
    let exp := ideal_unit_no_std bob unit
    formatFixed bob (unit ^ exp) precision ++ format.unit_separator ++
      String.mk [(format.unit_letters).getD (exp - 1) '?'] ++ format.unit_suffix

end display

/-! ## ByteSize arithmetic (src/lib.rs lines 287-380)

The operator bodies are plain `u64` `+`, `-`, `*`; Rust defines their
overflow as a program fault (a panic under overflow checks).  The checked
semantics is modelled by an `Option` result: `none` is the fault. -/

/-- `Add<ByteSize> for ByteSize`, src/lib.rs lines 287-294: `self.0 + rhs.0`. -/
def ByteSize.add (a b : ℕ) : Option ℕ :=
  if a + b < U64_MOD then some (a + b) else none

/-- `Sub<ByteSize> for ByteSize`, src/lib.rs lines 324-331: `self.0 - rhs.0`. -/
def ByteSize.sub (a b : ℕ) : Option ℕ :=
  if b ≤ a then some (a - b) else none

/-- `Mul<u64> for ByteSize`, src/lib.rs lines 361-370: `self.0 * rhs`. -/
def ByteSize.mul (a b : ℕ) : Option ℕ :=
  if a * b < U64_MOD then some (a * b) else none

/-! ## Parser

Modelled from the spec: the source declares `mod parse;` (src/lib.rs line
43) but src/parse.rs is not among the staged files, so the parser is
modelled from spec section 4.4: lex an optional-fraction decimal literal,
skip whitespace, match a case-insensitive unit token (final letter case
selects bits versus bytes), scale, and report exactly one of four error
kinds --- EmptyInput, InvalidNumber, InvalidUnit, Overflow. -/

/-- Error kinds of the parser, spec section 4.4. -/
inductive ParseError
  | EmptyInput
  | InvalidNumber
  | InvalidUnit
  | Overflow

/-- Value of a list of decimal digit characters. -/
def digitsToNat (cs : List Char) : ℕ :=
  cs.foldl (fun a c => 10 * a + (c.toNat - 48)) 0

/-- Modelled from the spec: tier of a prefix letter, case-insensitive
(K/M/G/T/P/E, with lowercase k for the decimal kilo tier). -/
def letterTier (c : Char) : Option ℕ :=
  if c = 'K' ∨ c = 'k' then some 1
  else if c = 'M' ∨ c = 'm' then some 2
  else if c = 'G' ∨ c = 'g' then some 3
  else if c = 'T' ∨ c = 't' then some 4
  else if c = 'P' ∨ c = 'p' then some 5
  else if c = 'E' ∨ c = 'e' then some 6
  else none

/-- Modelled from the spec: the unit token grammar.  Yields
(tier, base, bit flag): bare "B" (or nothing) is raw bytes, bare "b" raw
bits; a prefix letter optionally followed by an "i" marker (binary base)
and then "B" or "b".  Unknown tokens yield `none`. -/
def parseUnit (cs : List Char) : Option (ℕ × ℕ × Bool) :=
  match cs with
  | [] => some (0, KB, false)
  | ['B'] => some (0, KB, false)
  | ['b'] => some (0, KB, true)
  | c :: rest =>
    match letterTier c with
    | none => none
    | some tier =>
      match rest with
      | ['B'] => some (tier, KB, false)
      | ['b'] => some (tier, KB, true)
      | [i, 'B'] => if i = 'i' ∨ i = 'I' then some (tier, KIB, false) else none
      | [i, 'b'] => if i = 'i' ∨ i = 'I' then some (tier, KIB, true) else none
      | _ => none

/-- Modelled from the spec: the parse entry point (spec sections 4.4 and 6).
Total by construction; the mantissa is kept exact as the pair of digit
strings and the final value `round(mantissa * base ^ tier / 8-if-bits)` is
computed in integer arithmetic (`(2 * num + den) / (2 * den)` is
`round(num / den)`). -/
def parse (s : String) : Except ParseError ℕ :=
  let t1 := s.data.dropWhile (fun c => c.isWhitespace)
  let cs := (t1.reverse.dropWhile (fun c => c.isWhitespace)).reverse
  if cs.isEmpty then .error .EmptyInput
  else
    let intDigits := cs.takeWhile (fun c => c.isDigit)
    let rest1 := cs.dropWhile (fun c => c.isDigit)
    if intDigits.isEmpty then .error .InvalidNumber
    else
      let fracRes : Option (List Char × List Char) :=
        match rest1 with
        | '.' :: r =>
          let f := r.takeWhile (fun c => c.isDigit)
          if f.isEmpty then none else some (f, r.dropWhile (fun c => c.isDigit))
        | r => some ([], r)
      match fracRes with
      | none => .error .InvalidNumber
      | some (fracDigits, rest2) =>
        let tok := rest2.dropWhile (fun c => c.isWhitespace)
        match parseUnit tok with
        | none => .error .InvalidUnit
        | some (tier, base, bits) =>
          let L := fracDigits.length
          let num := (digitsToNat intDigits * 10 ^ L + digitsToNat fracDigits) * base ^ tier
          let den := 10 ^ L * (if bits then 8 else 1)
          let v := (2 * num + den) / (2 * den)
          if v < U64_MOD then .ok v else .error .Overflow

/-! ## Floor-logarithm lemmas -/

/-- Characterization of `floorLogAux`: for `unit ≥ 2`, `1 ≤ m ≤ fuel`, the
result `e` satisfies `unit ^ e ≤ m < unit ^ (e + 1)`. -/
theorem floorLogAux_spec (unit : ℕ) (hu : 2 ≤ unit) :
    ∀ fuel m, m ≤ fuel → 1 ≤ m →
      unit ^ floorLogAux unit fuel m ≤ m ∧ m < unit ^ (floorLogAux unit fuel m + 1) := by
  intro fuel
  induction fuel with
  | zero =>
    intro m hm h1
    exact absurd (h1.trans hm) (by omega)
  | succ f ih =>
    intro m hm h1
    by_cases hlt : m < unit
    · simp only [floorLogAux, if_pos hlt, pow_zero, zero_add, pow_one]
      exact ⟨h1, hlt⟩
    · have h2 : unit ≤ m := Nat.not_lt.mp hlt
      have hq1 : 1 ≤ m / unit := (Nat.one_le_div_iff (by omega)).mpr h2
      have hdlt : m / unit < m := Nat.div_lt_self (by omega) (by omega)
      have hqf : m / unit ≤ f := by omega
      obtain ⟨ha, hb⟩ := ih (m / unit) hqf hq1
      simp only [floorLogAux, if_neg hlt]
      constructor
      · calc unit ^ (floorLogAux unit f (m / unit) + 1)
            = unit ^ floorLogAux unit f (m / unit) * unit := pow_succ ..
          _ ≤ m / unit * unit := Nat.mul_le_mul_right unit ha
          _ ≤ m := Nat.div_mul_le_self m unit
      · calc m
            < unit ^ (floorLogAux unit f (m / unit) + 1) * unit :=
              (Nat.div_lt_iff_lt_mul (by omega)).mp hb
          _ = unit ^ (floorLogAux unit f (m / unit) + 1 + 1) := (pow_succ ..).symm

/-- Characterization of `floorLog`. -/
theorem floorLog_spec {unit m : ℕ} (hu : 2 ≤ unit) (h1 : 1 ≤ m) :
    unit ^ floorLog unit m ≤ m ∧ m < unit ^ (floorLog unit m + 1) :=
  floorLogAux_spec unit hu m m le_rfl h1

/-- Above the base the floor logarithm is at least 1. -/
theorem floorLog_pos {unit m : ℕ} (hu : 2 ≤ unit) (hm : unit ≤ m) :
    1 ≤ floorLog unit m := by
  obtain ⟨_, h2⟩ := floorLog_spec hu (by omega : 1 ≤ m)
  rcases Nat.eq_zero_or_pos (floorLog unit m) with h0 | h0
  · rw [h0, zero_add, pow_one] at h2
    omega
  · exact h0

/-- Strict upper bound of the floor logarithm from a power bound. -/
theorem floorLog_lt_of_lt_pow {unit m k : ℕ} (hu : 2 ≤ unit) (h1 : 1 ≤ m)
    (h : m < unit ^ k) : floorLog unit m < k := by
  obtain ⟨ha, _⟩ := floorLog_spec hu h1
  by_contra hk
  have hle : unit ^ k ≤ unit ^ floorLog unit m := Nat.pow_le_pow_right (by omega) (by omega)
  omega

/-! ## Claim theorems -/

/-- C2 failing input: the two tier selectors of src/display.rs disagree at
m = 2 ^ 50 - 1 (one below 1024 ^ 5, exactly representable as an f64).  The
platform logarithm of that value rounds to the same double as 5 * LN_KIB
(hex 0x1.1542457337d43p+5: the true values differ by about 9e-16 against a
half-ulp of about 3.6e-15), so the quotient of `ideal_unit_std` is exactly
5.0, the cast estimate is 5, and the program returns tier 5 --- while the
iterative `ideal_unit_no_std` returns tier 4, as evaluated here (at this
input the f64 conversion and the loop comparisons are exact, so the
embedded loop is faithful).  The quickcheck property
ideal_unit_selection_std_no_std_iec of src/display.rs asserts the two
agree, so the code contradicts its own test. -/
theorem selectors_disagree_at_fp_band :
    display.ideal_unit_no_std (2 ^ 50 - 1) 1024 = 4 ∧
      display.ideal_unit_std_match 5 = some 5 ∧
      (some 5 : Option ℕ) ≠ some (display.ideal_unit_no_std (2 ^ 50 - 1) 1024) := by
  decide

/-- C5 counterexample: a zero tier estimate is not clamped to 1 by the std
selector of src/display.rs; its match sends 0 to `unreachable!` (a panic,
modelled `none`), not to the tier 1 the claim states. -/
theorem std_selector_zero_estimate_panics :
    display.ideal_unit_std_match 0 = none ∧ display.ideal_unit_std_match 0 ≠ some 1 := by
  refine ⟨rfl, ?_⟩
  intro h
  exact Option.noConfusion h

/-- C5 amended: the renderer of src/lib.rs clamps a zero tier estimate to 1
(`clampExp`), while `ideal_unit_std` of src/display.rs panics on a zero
estimate instead of clamping; in both, tier 0 is never returned, so the
prefix array is never indexed below position 0. -/
theorem tier_estimate_never_zero :
    (∀ e : ℕ, 1 ≤ clampExp e) ∧ display.ideal_unit_std_match 0 = none ∧
      (∀ e : ℕ, display.ideal_unit_std_match e ≠ some 0) := by
  refine ⟨?_, rfl, ?_⟩
  · intro e
    cases e with
    | zero => simp [clampExp]
    | succ n => simp [clampExp]
  · intro e h
    cases e with
    | zero => exact Option.noConfusion h
    | succ n =>
      simp only [display.ideal_unit_std_match, Option.some.injEq] at h
      omega

/-- C9: for byte counts below 2 ^ 64 and at least the base (1024 or 1000),
the clamped tier lies in 1..6, so the index tier - 1 into the six-letter
prefix arrays is in bounds; and the tier of the largest u64 value is 6 at
both bases. -/
theorem byte_tier_in_bounds (m base : ℕ) (hm64 : m < 2 ^ 64)
    (hb : base = 1024 ∨ base = 1000) (hm : base ≤ m) :
    1 ≤ clampExp (floorLog base m) ∧ clampExp (floorLog base m) ≤ 6 ∧
      clampExp (floorLog base m) - 1 < UNITS_IEC.length ∧
      clampExp (floorLog base m) - 1 < UNITS_SI.length ∧
      floorLog 1024 (2 ^ 64 - 1) = 6 ∧ floorLog 1000 (2 ^ 64 - 1) = 6 := by
  have hu : 2 ≤ base := by rcases hb with h | h <;> omega
  have h1 : 1 ≤ m := by omega
  have hpos := floorLog_pos hu hm
  have hlt7 : floorLog base m < 7 := by
    apply floorLog_lt_of_lt_pow hu h1
    rcases hb with h | h <;> subst h
    · calc m < 2 ^ 64 := hm64
        _ ≤ 1024 ^ 7 := by norm_num
    · calc m < 2 ^ 64 := hm64
        _ ≤ 1000 ^ 7 := by norm_num
  have hcl : clampExp (floorLog base m) = floorLog base m := by
    cases hfl : floorLog base m with
    | zero => omega
    | succ e => rfl
  rw [hcl]
  have hIEC : UNITS_IEC.length = 6 := rfl
  have hSI : UNITS_SI.length = 6 := rfl
  refine ⟨hpos, by omega, by rw [hIEC]; omega, by rw [hSI]; omega, by decide, by decide⟩

/-- Witness for C9 at the concrete input m = 1536, base = 1024. -/
theorem byte_tier_in_bounds_witness :
    1536 < 2 ^ 64 ∧ (1024 = 1024 ∨ 1024 = 1000) ∧ 1024 ≤ 1536 ∧
      (1 ≤ clampExp (floorLog 1024 1536) ∧ clampExp (floorLog 1024 1536) ≤ 6 ∧
        clampExp (floorLog 1024 1536) - 1 < UNITS_IEC.length ∧
        clampExp (floorLog 1024 1536) - 1 < UNITS_SI.length ∧
        floorLog 1024 (2 ^ 64 - 1) = 6 ∧ floorLog 1000 (2 ^ 64 - 1) = 6) :=
  ⟨by norm_num, Or.inl rfl, by norm_num,
    byte_tier_in_bounds 1536 1024 (by norm_num) (Or.inl rfl) (by norm_num)⟩

/-- C6: at every tier boundary base ^ t (t in 1..6) and both unit systems,
the renderer of src/lib.rs produces exactly "1.0", the separator, the
prefix letter at index t - 1, and the suffix. -/
theorem boundary_renders_as_one :
    to_string_format (1024 ^ 1) Format.IEC = "1.0 KiB" ∧
    to_string_format (1024 ^ 2) Format.IEC = "1.0 MiB" ∧
    to_string_format (1024 ^ 3) Format.IEC = "1.0 GiB" ∧
    to_string_format (1024 ^ 4) Format.IEC = "1.0 TiB" ∧
    to_string_format (1024 ^ 5) Format.IEC = "1.0 PiB" ∧
    to_string_format (1024 ^ 6) Format.IEC = "1.0 EiB" ∧
    to_string_format (1000 ^ 1) Format.SI = "1.0 kB" ∧
    to_string_format (1000 ^ 2) Format.SI = "1.0 MB" ∧
    to_string_format (1000 ^ 3) Format.SI = "1.0 GB" ∧
    to_string_format (1000 ^ 4) Format.SI = "1.0 TB" ∧
    to_string_format (1000 ^ 5) Format.SI = "1.0 PB" ∧
    to_string_format (1000 ^ 6) Format.SI = "1.0 EB" := by
  decide

/-- C7 failing input: at 1024000 bytes (1000 KiB exactly) the rendered
string is "1000.0 KiB", of length 10, violating the claimed strict bound
of 10 (and the repository quickcheck property to_string_never_large). -/
theorem render_length_ten_at_1024000 :
    to_string_format 1024000 Format.IEC = "1000.0 KiB" ∧
      (to_string_format 1024000 Format.IEC).length = 10 ∧
      ¬ (to_string_format 1024000 Format.IEC).length < 10 := by
  decide

/-- C1 failing input: the magnitude computation of src/display.rs line 159,
`bytes * (is_bits as u64 * 8)`, multiplies by zero for every byte variant:
at 215 bytes the Iec and Si magnitudes are 0, not 215, while the bit
variants correctly scale by 8. -/
theorem magnitude_zeroed_for_byte_formats :
    display.bits_or_bytes display.Format.Iec 215 = 0 ∧
    display.bits_or_bytes display.Format.Si 215 = 0 ∧
    display.bits_or_bytes display.Format.IecShort 215 = 0 ∧
    display.bits_or_bytes display.Format.SiShort 215 = 0 ∧
    display.bits_or_bytes display.Format.IecBits 215 = 1720 ∧
    display.bits_or_bytes display.Format.SiBits 215 = 1720 := by
  decide

/-- C4 failing input: rendering 215 bytes with the Iec byte format through
src/display.rs produces "0 B" instead of the claimed "215 B" (which the
renderer of src/lib.rs, and the bit variants of src/display.rs, do
produce). -/
theorem small_byte_value_renders_zero :
    display.fmt display.Format.Iec 215 1 = "0 B" ∧
      to_string_format 215 Format.IEC = "215 B" ∧
      display.fmt display.Format.IecBits 1 1 = "8 b" := by
  decide

/-- C10: for bit-variant formats the x8 scaling is a wrapping 64-bit
product: beyond 2 ^ 61 - 1 bytes the computed magnitude is 8 * b mod 2 ^ 64,
which differs from the true bit count 8 * b. -/
theorem bit_scaling_wraps (b : ℕ) (f : display.Format) (hf : f.is_bits = true)
    (hb : 2 ^ 61 - 1 < b) (hb64 : b < 2 ^ 64) :
    display.bits_or_bytes f b = 8 * b % 2 ^ 64 ∧
      display.bits_or_bytes f b ≠ 8 * b := by
  have heq : display.bits_or_bytes f b = b * 8 % 2 ^ 64 := by
    simp [display.bits_or_bytes, U64_MOD, hf]
  constructor
  · rw [heq, Nat.mul_comm]
  · rw [heq]
    have h8 : 2 ^ 64 ≤ b * 8 := by omega
    have hmod : b * 8 % 2 ^ 64 < 2 ^ 64 := Nat.mod_lt _ (by norm_num)
    omega

/-- Witness for C10 at the concrete input b = 2 ^ 61, format IecBits. -/
theorem bit_scaling_wraps_witness :
    display.Format.IecBits.is_bits = true ∧ 2 ^ 61 - 1 < 2 ^ 61 ∧
      (2 : ℕ) ^ 61 < 2 ^ 64 ∧
      (display.bits_or_bytes display.Format.IecBits (2 ^ 61) = 8 * 2 ^ 61 % 2 ^ 64 ∧
        display.bits_or_bytes display.Format.IecBits (2 ^ 61) ≠ 8 * 2 ^ 61) :=
  ⟨rfl, by norm_num, by norm_num,
    bit_scaling_wraps (2 ^ 61) display.Format.IecBits rfl (by norm_num) (by norm_num)⟩

/-- C8: ByteSize subtraction with a larger right operand is a fault (none),
never a wrapped or signed value, and addition and multiplication whose
mathematical result leaves the u64 range are faults; in-range results are
the exact mathematical values. -/
theorem arithmetic_overflow_faults (a b : ℕ) (_ha : a < 2 ^ 64) (_hb : b < 2 ^ 64) :
    (a < b → ByteSize.sub a b = none) ∧
    (b ≤ a → ByteSize.sub a b = some (a - b)) ∧
    (2 ^ 64 ≤ a + b → ByteSize.add a b = none) ∧
    (a + b < 2 ^ 64 → ByteSize.add a b = some (a + b)) ∧
    (2 ^ 64 ≤ a * b → ByteSize.mul a b = none) ∧
    (a * b < 2 ^ 64 → ByteSize.mul a b = some (a * b)) := by
  unfold ByteSize.sub ByteSize.add ByteSize.mul U64_MOD
  refine ⟨fun h => ?_, fun h => ?_, fun h => ?_, fun h => ?_, fun h => ?_, fun h => ?_⟩
  · rw [if_neg (by omega)]
  · rw [if_pos h]
  · rw [if_neg (by omega)]
  · rw [if_pos h]
  · rw [if_neg (by omega)]
  · rw [if_pos h]

/-- Witness for C8 at the concrete inputs a = 1, b = 2: subtracting the
larger value faults. -/
theorem arithmetic_overflow_faults_witness :
    (1 : ℕ) < 2 ^ 64 ∧ (2 : ℕ) < 2 ^ 64 ∧ (1 : ℕ) < 2 ∧ ByteSize.sub 1 2 = none :=
  ⟨by norm_num, by norm_num, by norm_num,
    (arithmetic_overflow_faults 1 2 (by norm_num) (by norm_num)).1 (by norm_num)⟩

/-- C3: the parser is a total function whose every result is a value or
exactly one of the four error kinds; empty input and whitespace-only input
yield EmptyInput. -/
theorem parse_total_and_error_kinds :
    parse "" = Except.error ParseError.EmptyInput ∧
    (∀ s : String, (∀ c ∈ s.data, c.isWhitespace = true) →
      parse s = Except.error ParseError.EmptyInput) ∧
    (∀ s : String, (∃ v, parse s = Except.ok v) ∨
      parse s = Except.error ParseError.EmptyInput ∨
      parse s = Except.error ParseError.InvalidNumber ∨
      parse s = Except.error ParseError.InvalidUnit ∨
      parse s = Except.error ParseError.Overflow) := by
  refine ⟨rfl, ?_, ?_⟩
  · intro s hws
    have h1 : s.data.dropWhile (fun c => c.isWhitespace) = [] := by
      rw [List.dropWhile_eq_nil_iff]
      intro x hx
      exact hws x hx
    simp [parse, h1]
  · intro s
    cases hp : parse s with
    | ok v => exact Or.inl ⟨v, rfl⟩
    | error e =>
      cases e with
      | EmptyInput => exact Or.inr (Or.inl rfl)
      | InvalidNumber => exact Or.inr (Or.inr (Or.inl rfl))
      | InvalidUnit => exact Or.inr (Or.inr (Or.inr (Or.inl rfl)))
      | Overflow => exact Or.inr (Or.inr (Or.inr (Or.inr rfl)))

/-! ## Model validation against the test vectors of the repository -/

/-- Concrete renderings matching the test suite of src/lib.rs
(test_to_string_as) and the concrete cases of spec section 8. -/
theorem to_string_format_matches_repo_tests :
    to_string_format 215 Format.IEC = "215 B" ∧
    to_string_format (301 * KB) Format.IEC = "293.9 KiB" ∧
    to_string_format (301 * KB) Format.SI = "301.0 kB" ∧
    to_string_format (518 * GB) Format.IEC = "482.4 GiB" ∧
    to_string_format (609 * PB) Format.SI = "609.0 PB" := by
  decide

/-- Concrete bit-variant renderings matching the as_bits test of
src/display.rs (the bit variants are untouched by the byte-variant
magnitude bug). -/
theorem display_bits_matches_repo_tests :
    display.fmt display.Format.IecBits 8555 1 = "8.4 Kib" ∧
    display.fmt display.Format.SiBits 8555 1 = "8.6 kb" := by
  decide

/-- Concrete parses matching spec section 8. -/
theorem parse_matches_spec_cases :
    parse "1.5KiB" = Except.ok 1536 ∧
    parse "301.0 kB" = Except.ok 301000 ∧
    parse "4 Xb" = Except.error ParseError.InvalidUnit := by
  refine ⟨rfl, rfl, rfl⟩

end Bytesize
